import Mathlib

/-!
Verification development for the sharded vector/metadata store of the
document-extraction repository.

The model is a shallow embedding of the Python source:
* `database.py` (`MetadataDB`): SQLite-backed metadata rows and the shard
  registry, embedded as in-memory lists; SQL `WHERE` clauses become list
  filters, `ORDER BY shard_date DESC` becomes an insertion sort, and the
  TEXT comparison used by SQLite on `shard_date` (byte-wise BINARY
  collation on the YYYYMMDD strings) is embedded as the explicit
  code-point comparison `textLtB` (all shard dates are ASCII digits, for
  which byte order and code-point order agree).
* `document_manager.py` (`DocumentManager`): ingestion (`add_document`)
  and search (`search_user_documents`); the on-disk FAISS index files
  become an explicit path-to-vectors association list.
* `query_engine.py` (`QueryEngine._rerank_results`): the 0.7/0.3 blend of
  similarity and recency.

Python floats are embedded as rationals (`ℚ`); machine reals only enter
through comparisons and the claims are about ordering, which the rational
model preserves on the concrete inputs used here.
-/

namespace DocStore

/-- Byte-wise lexicographic comparison on character lists: the embedding of
the SQLite BINARY collation used for every `shard_date` comparison in
`database.py` (`<`, `>=` on the TEXT column). On the ASCII digit strings
produced by `strftime("%Y%m%d")` this is exactly lexicographic order. -/
def textLtB : List Char → List Char → Bool
  | [], [] => false
  | [], _ :: _ => true
  | _ :: _, [] => false
  | a :: as, b :: bs =>
    if a.toNat < b.toNat then true
    else if b.toNat < a.toNat then false
    else textLtB as bs

/-- Strict order on shard-date strings, as compared by SQLite. -/
def textLt (a b : String) : Prop := textLtB a.data b.data = true

/-- Reflexive order on shard-date strings: `textLe a b` holds when
`b < a` fails under the SQLite collation. -/
def textLe (a b : String) : Prop := textLtB b.data a.data = false

instance (a b : String) : Decidable (textLt a b) := by
  unfold textLt; infer_instance

instance (a b : String) : Decidable (textLe a b) := by
  unfold textLe; infer_instance

/-- Value of an ASCII digit character, `none` on a non-digit: a building
block for the embedding of Python `int(...)` in `_rerank_results`. -/
def digitVal (c : Char) : Option Nat :=
  if 48 ≤ c.toNat ∧ c.toNat ≤ 57 then some (c.toNat - 48) else none

/-- Accumulating decimal parse of a digit string. -/
def parseDigits : List Char → Nat → Option Nat
  | [], acc => some acc
  | c :: cs, acc =>
    match digitVal c with
    | some d => parseDigits cs (acc * 10 + d)
    | none => none

/-- Embedding of Python `int(shard_date)` as used by
`QueryEngine._rerank_results`; shard dates are always digit strings
(`strftime("%Y%m%d")`), on which this is exact decimal parsing. -/
def pyInt (s : String) : Nat := (parseDigits s.data 0).getD 0

/-- Embedded vectors: a FAISS float vector becomes a list of rationals. -/
abbrev Vec := List ℚ

/-- A row of the `vector_metadata` table (`database.py`, `_initialize_db`). -/
structure VRow where
  vector_id : Int
  user_id : String
  shard_date : String
  document_name : String
  page_number : Int
  chunk_index : Int
  page_content : String
deriving DecidableEq

/-- A row of the `index_shards` registry table. -/
structure ShardRow where
  shard_date : String
  index_path : String
  vector_count : Nat
deriving DecidableEq

/-- The metadata database: both tables of `MetadataDB`. -/
structure DB where
  rows : List VRow
  shards : List ShardRow
deriving DecidableEq

/-- One entry of the `vectors_data` batch passed to
`MetadataDB.add_vectors` (`document_manager.py` builds these dicts). -/
structure VData where
  vector_id : Int
  document_name : String
  page_number : Int
  chunk_index : Int
  page_content : String
deriving DecidableEq

/-- The row inserted for one `vectors_data` entry by the `INSERT` in
`MetadataDB.add_vectors`. -/
def vdataToRow (user_id shard_date : String) (d : VData) : VRow :=
  { vector_id := d.vector_id
    user_id := user_id
    shard_date := shard_date
    document_name := d.document_name
    page_number := d.page_number
    chunk_index := d.chunk_index
    page_content := d.page_content }

/-- `MetadataDB.add_vectors`: one `INSERT` per entry of `vectors_data`,
committed as a batch. -/
def addVectors (db : DB) (user_id shard_date : String)
    (vectors_data : List VData) : DB :=
  { db with rows := db.rows ++ vectors_data.map (vdataToRow user_id shard_date) }

/-- `MetadataDB.get_vector_metadata`: the `SELECT ... WHERE user_id = ?
AND shard_date = ? AND vector_id IN (...)` query, i.e. a filter over the
`vector_metadata` table. The SQL projects a subset of columns; the model
returns the matched rows whole, which carries strictly more information. -/
def getVectorMetadata (db : DB) (user_id : String) (vector_ids : List Int)
    (shard_date : String) : List VRow :=
  db.rows.filter fun r =>
    decide (r.user_id = user_id ∧ r.shard_date = shard_date ∧
      r.vector_id ∈ vector_ids)

/-- `MetadataDB.register_shard`: `INSERT OR REPLACE` keyed on
`shard_date` (the primary key): any existing row for the date is replaced. -/
def registerShard (db : DB) (shard_date index_path : String)
    (vector_count : Nat) : DB :=
  { db with shards :=
      db.shards.filter (fun s => !decide (s.shard_date = shard_date)) ++
        [⟨shard_date, index_path, vector_count⟩] }

/-- Descending order on registry rows by shard date: the `ORDER BY
shard_date DESC` of `get_active_shards`. -/
def shardDateGE (a b : ShardRow) : Prop := textLe b.shard_date a.shard_date

instance : DecidableRel shardDateGE := fun a b => by
  unfold shardDateGE; infer_instance

/-- `MetadataDB.get_active_shards`: shards with `shard_date >= cutoff`,
newest first. The cutoff parameter stands for the string
`(datetime.now() - timedelta(days=retention_days)).strftime("%Y%m%d")`
computed identically at the top of `get_active_shards` and
`delete_stale_data`. -/
def getActiveShards (cutoff : String) (db : DB) : List ShardRow :=
  List.insertionSort shardDateGE
    (db.shards.filter fun s => !textLtB s.shard_date.data cutoff.data)

/-- The counts dictionary returned by `MetadataDB.delete_stale_data`. -/
structure DeleteCounts where
  deleted_vectors : Nat
  deleted_shards : Nat
  deleted_files : Nat
deriving DecidableEq

/-- The best-effort file-deletion loop at the end of `delete_stale_data`:
`if os.path.exists(index_path): os.remove(index_path)` for each stale
shard path, over a disk modelled as the list of existing paths. -/
def removeFiles (disk paths : List String) : List String :=
  paths.foldl (fun d p => if p ∈ d then d.erase p else d) disk

/-- `MetadataDB.delete_stale_data`: select the stale shards, delete
metadata rows and registry rows with `shard_date < cutoff`, report the
`rowcount`s, then best-effort delete the stale index files. Returns the
counts, the database after the transaction, and the disk after the file
loop. -/
def deleteStaleData (cutoff : String) (db : DB) (disk : List String) :
    DeleteCounts × DB × List String :=
  let staleShards := db.shards.filter fun s =>
    textLtB s.shard_date.data cutoff.data
  let deletedVectors := (db.rows.filter fun r =>
    textLtB r.shard_date.data cutoff.data).length
  let rows' := db.rows.filter fun r => !textLtB r.shard_date.data cutoff.data
  let shards' := db.shards.filter fun s => !textLtB s.shard_date.data cutoff.data
  let disk' := removeFiles disk (staleShards.map (·.index_path))
  (⟨deletedVectors, staleShards.length, staleShards.length⟩,
    ⟨rows', shards'⟩, disk')

/-- Squared Euclidean distance between two embedded vectors, the metric of
the `IndexFlatL2` shards (`document_manager.py` creates
`faiss.IndexFlatL2(dimension)`). -/
def sqDist (u v : Vec) : ℚ :=
  (List.zipWith (fun a b => (a - b) * (a - b)) u v).sum

/-- Every stored vector of a shard paired with its squared distance to the
query, ids in insertion order `0, 1, ...`. -/
def scoredVectors (vecs : List Vec) (q : Vec) : List (Nat × ℚ) :=
  (List.range vecs.length).map fun i => (i, sqDist (vecs.getD i []) q)

/-- Ascending order on scored vectors by distance. -/
def distLE (a b : Nat × ℚ) : Prop := a.2 ≤ b.2

instance : DecidableRel distLE := fun a b => by
  unfold distLE; infer_instance

/-- Modelled from the spec: the real (unpadded) result slots of FAISS
`IndexFlatL2.search`, which is external library code not in this
repository. Per spec §4.1 the search is exact brute force: up to `k`
nearest stored vectors by squared Euclidean distance, ascending. -/
def knnResults (vecs : List Vec) (q : Vec) (k : Nat) : List (Nat × ℚ) :=
  (List.insertionSort distLE (scoredVectors vecs q)).take k

/-- Modelled from the spec: the sentinel distance FAISS places in result
slots beyond the shard population; its value is irrelevant to every claim. -/
def padDistance : ℚ := 34028234663852886 * 10 ^ 22

/-- Modelled from the spec and the FAISS flat-index contract the code
relies on: `index.search` returns exactly `k` slots, the exact nearest
neighbours first (ascending by squared L2 distance), remaining slots
padded with label `-1` and a sentinel distance. -/
def faissSearch (vecs : List Vec) (q : Vec) (k : Nat) : List (Int × ℚ) :=
  (knnResults vecs q k).map (fun p => ((p.1 : Int), p.2)) ++
    List.replicate (k - (knnResults vecs q k).length) (-1, padDistance)

/-- `DocumentManager._get_index_path`. -/
def indexPath (data_dir shard_date : String) : String :=
  data_dir ++ "/index_" ++ shard_date ++ ".faiss"

/-- The on-disk index files: path to stored vectors. -/
abbrev FileStore := List (String × List Vec)

/-- `os.path.exists` plus `faiss.read_index`: look an index file up by path. -/
def fileLookup (files : FileStore) (path : String) : Option (List Vec) :=
  (files.find? fun f => f.1 == path).map (·.2)

/-- `faiss.write_index`: store (or overwrite) the index file at a path. -/
def fileWrite (files : FileStore) (path : String) (v : List Vec) : FileStore :=
  files.filter (fun f => !(f.1 == path)) ++ [(path, v)]

/-- The process state seen by `DocumentManager`: the metadata database and
the on-disk index files. -/
structure SysState where
  db : DB
  files : FileStore
deriving DecidableEq

/-- `DocumentManager._load_or_create_index`: load the index file for the
shard date if present, else start an empty index and register the shard.
Returns the in-memory index, the current vector count, and the database
(updated when a new shard was registered). -/
def loadOrCreateIndex (st : SysState) (data_dir shard_date : String) :
    List Vec × Nat × DB :=
  match fileLookup st.files (indexPath data_dir shard_date) with
  | some vecs => (vecs, vecs.length, st.db)
  | none => ([], 0, registerShard st.db shard_date (indexPath data_dir shard_date) 0)

/-- The `vectors_data` list built in `DocumentManager.add_document`: entry
`idx` carries `vector_id = current_count + idx`, the page number when
supplied and in range, and the chunk text. -/
def buildVectorsData (current_count : Nat) (chunks : List String)
    (document_name : String) (page_numbers : Option (List Int)) : List VData :=
  chunks.enum.map fun p =>
    { vector_id := (current_count + p.1 : Nat)
      document_name := document_name
      page_number :=
        match page_numbers with
        | some ps => if p.1 < ps.length then ps.getD p.1 0 else 0
        | none => 0
      chunk_index := (p.1 : Nat)
      page_content := p.2 }

/-- Spec §7 error taxonomy, the two classes that can abort ingestion. -/
inductive IngestError where
  | upstream
  | storage
deriving DecidableEq

/-- Outcome of `add_document`: the success dict, the no-chunks failure
dict, or a raised error. -/
inductive IngestOutcome where
  | ok (chunks_processed : Nat)
  | noChunks
  | err (e : IngestError)
deriving DecidableEq

/-- `DocumentManager.add_document`, with the two external failure points
made explicit: `embedOk = false` means the OpenAI embeddings call raises
(`UpstreamError`), `persistOk = false` means `faiss.write_index` in
`_save_index` fails (`StorageError`). The text splitter and the embedder
are external collaborators: the call receives the chunk list the splitter
produced and an order-preserving embedding function. Steps, in source
order: empty-chunk check, embed, load-or-create index (registering a new
shard), append vectors in memory, build `vectors_data`, commit metadata
via `add_vectors`, then persist the index and upsert the registry row. -/
def addDocument (emb : String → Vec) (embedOk persistOk : Bool)
    (st : SysState) (data_dir user_id : String) (chunks : List String)
    (document_name : String) (page_numbers : Option (List Int))
    (shard_date : String) : IngestOutcome × SysState :=
  if chunks.isEmpty then (.noChunks, st)
  else if !embedOk then (.err .upstream, st)
  else
    let embeddings := chunks.map emb
    let loaded := loadOrCreateIndex st data_dir shard_date
    let index' := loaded.1 ++ embeddings
    let vectors_data := buildVectorsData loaded.2.1 chunks document_name page_numbers
    let db₂ := addVectors loaded.2.2 user_id shard_date vectors_data
    if !persistOk then (.err .storage, ⟨db₂, st.files⟩)
    else
      (.ok chunks.length,
        ⟨registerShard db₂ shard_date (indexPath data_dir shard_date) index'.length,
          fileWrite st.files (indexPath data_dir shard_date) index'⟩)

/-- The vector ids assigned by a sequence of successful `add_document`
calls on one shard, one inner list per call: each call starts at the
current vector count and `index.add` grows the count by the number of
appended embeddings, so the next call resumes there. Ids do not depend on
the document name or page numbers. -/
def ingestIds : Nat → List (List String) → List (List Int)
  | _, [] => []
  | c, chunks :: rest =>
      (buildVectorsData c chunks "doc" none).map (·.vector_id) ::
        ingestIds (c + chunks.length) rest

/-- One combined search result of `search_user_documents` (the dict built
from the metadata row, the distance, the similarity score, and the shard
date; `final_score` is written later by `_rerank_results` and is `0`
until then). -/
structure Result where
  vector_id : Int
  document_name : String
  page_number : Int
  chunk_index : Int
  page_content : String
  distance : ℚ
  score : ℚ
  shard_date : String
  final_score : ℚ
deriving DecidableEq

/-- The per-shard body of the loop in
`DocumentManager.search_user_documents`: over-retrieve `top_k * 3` slots
from the shard index, look the returned ids up in the metadata filtered by
tenant, and combine each matched row with the distance found at the first
position of its vector id (`vector_ids.index(...)`), the similarity score
`1 / (1 + distance)`, and the shard date. -/
def searchShardResults (db : DB) (user_id shard_date : String)
    (vecs : List Vec) (q : Vec) (top_k : Nat) : List Result :=
  let out := faissSearch vecs q (top_k * 3)
  let vector_ids := out.map (·.1)
  let metas := getVectorMetadata db user_id vector_ids shard_date
  metas.map fun m =>
    let idx := vector_ids.indexOf m.vector_id
    let distance := (out.map (·.2)).getD idx 0
    { vector_id := m.vector_id
      document_name := m.document_name
      page_number := m.page_number
      chunk_index := m.chunk_index
      page_content := m.page_content
      distance := distance
      score := 1 / (1 + distance)
      shard_date := shard_date
      final_score := 0 }

/-- The `all_results` accumulator of `search_user_documents` before the
final sort: every active shard whose index file exists on disk
contributes its combined, tenant-filtered results. -/
def allSearchResults (st : SysState) (user_id : String) (q : Vec)
    (top_k : Nat) (cutoff : String) : List Result :=
  ((getActiveShards cutoff st.db).map fun shard =>
    match fileLookup st.files shard.index_path with
    | none => []
    | some vecs => searchShardResults st.db user_id shard.shard_date vecs q top_k).flatten

/-- Descending order on results by similarity score: the key of
the Python sort of `all_results` on the score key, descending. -/
def scoreGE (a b : Result) : Prop := b.score ≤ a.score

instance : DecidableRel scoreGE := fun a b => by
  unfold scoreGE; infer_instance

/-- `DocumentManager.search_user_documents` final step: sort all
candidates descending by similarity score and truncate to `top_k`. -/
def searchUserDocuments (st : SysState) (user_id : String) (q : Vec)
    (top_k : Nat) (cutoff : String) : List Result :=
  (List.insertionSort scoreGE (allSearchResults st user_id q top_k cutoff)).take top_k

/-- The 0.7/0.3 blend of `QueryEngine._rerank_results`:
`0.7 * score + 0.3 * recency_score`. -/
def blend (score recency : ℚ) : ℚ := 7 / 10 * score + 3 / 10 * recency

/-- The recency score of `_rerank_results`: `int(shard_date) / 20300101`. -/
def recencyScore (shard_date : String) : ℚ := (pyInt shard_date : ℚ) / 20300101

/-- Descending order on results by final blended score: the key of the
sort in `_rerank_results`. -/
def finalGE (a b : Result) : Prop := b.final_score ≤ a.final_score

instance : DecidableRel finalGE := fun a b => by
  unfold finalGE; infer_instance

/-- The result annotated with its final blended score, as `_rerank_results`
writes it: `final_score = 0.7 * score + 0.3 * recency_score`. -/
def withFinal (r : Result) : Result :=
  { r with final_score := blend r.score (recencyScore r.shard_date) }

/-- `QueryEngine._rerank_results`: write `final_score` on every result,
then sort descending by it. -/
def rerankResults (results : List Result) : List Result :=
  List.insertionSort finalGE (results.map withFinal)

/-- `QueryEngine.get_relevant_chunks` (and the retrieval part of
`generate_response`): the reranked search results, the list the caller
receives. -/
def getRelevantChunks (st : SysState) (user_id : String) (q : Vec)
    (top_k : Nat) (cutoff : String) : List Result :=
  rerankResults (searchUserDocuments st user_id q top_k cutoff)

/-- The composite key that identifies a candidate across the pipeline:
spec §3 names `(shard_date, vector_id)` as the true global key. -/
def resultKey (r : Result) : String × Int := (r.shard_date, r.vector_id)

/-- Formalisation of the C4 claim text: the returned list is a
top-`k`-by-final-score subset of the candidate pool, i.e. it has full
length `min k pool` and no candidate left out beats a returned result on
the final blended score. -/
def returnedTopKByFinal (cands out : List Result) (k : Nat) : Prop :=
  out.length = min k cands.length ∧
  ∀ c ∈ cands, resultKey c ∉ out.map resultKey →
    ∀ x ∈ out, blend c.score (recencyScore c.shard_date) ≤ x.final_score

/-- A metadata row as ingestion writes it, used by the concrete scenarios. -/
def mkRow (uid sd : String) (i : Int) : VRow :=
  ⟨i, uid, sd, "doc", 0, i, "chunk"⟩

/-- Scenario A database (spec §8): tenant `u1` ingested ids 0–4 and tenant
`u2` ids 5–7 into the shard `20250101`. -/
def scnADB : DB :=
  ⟨(([0, 1, 2, 3, 4] : List Int).map (mkRow "u1" "20250101")) ++
      (([5, 6, 7] : List Int).map (mkRow "u2" "20250101")),
    [⟨"20250101", "p1", 8⟩]⟩

/-- Scenario B database (spec §8): one registered shard per day
`20250101`–`20250105`. -/
def scnBDB : DB :=
  ⟨[], [⟨"20250101", "p1", 1⟩, ⟨"20250102", "p2", 1⟩, ⟨"20250103", "p3", 1⟩,
    ⟨"20250104", "p4", 1⟩, ⟨"20250105", "p5", 1⟩]⟩

/-- Rerank counterexample state: tenant `u` has one vector in an old shard
(`20000101`, vector `[1]`) and one in a recent shard (`20250101`, vector
`[201/200]`); with the query `[0]` the old chunk has the slightly better
similarity, the recent one the better blended score. -/
def c4St : SysState :=
  ⟨⟨[⟨0, "u", "20000101", "dOld", 0, 0, "c"⟩, ⟨0, "u", "20250101", "dNew", 0, 0, "c"⟩],
      [⟨"20000101", "pOld", 1⟩, ⟨"20250101", "pNew", 1⟩]⟩,
    [("pOld", [[1]]), ("pNew", [[201 / 200]])]⟩

/-- The combined (pre-rerank) result for the old-shard chunk of `c4St`. -/
def c4ResOld : Result := ⟨0, "dOld", 0, 0, "c", 1, 1 / 2, "20000101", 0⟩

/-- The combined (pre-rerank) result for the new-shard chunk of `c4St`. -/
def c4ResNew : Result := ⟨0, "dNew", 0, 0, "c", 40401 / 40000, 40000 / 80401, "20250101", 0⟩

end DocStore

namespace DocStore

/-- The byte-wise collation is irreflexive. -/
theorem textLtB_irrefl : ∀ l : List Char, textLtB l l = false
  | [] => rfl
  | _ :: cs => by simp [textLtB, textLtB_irrefl cs]

/-- The byte-wise collation is asymmetric. -/
theorem textLtB_asymm : ∀ a b : List Char, textLtB a b = true → textLtB b a = false
  | [], [], h => by simp [textLtB] at h
  | [], _ :: _, _ => by simp [textLtB]
  | _ :: _, [], h => by simp [textLtB] at h
  | x :: as, y :: bs, h => by
    simp only [textLtB] at h ⊢
    by_cases h₁ : x.toNat < y.toNat
    · rw [if_neg (show ¬y.toNat < x.toNat by omega), if_pos h₁]
    · by_cases h₂ : y.toNat < x.toNat
      · rw [if_neg h₁, if_pos h₂] at h
        exact absurd h (by simp)
      · rw [if_neg h₁, if_neg h₂] at h
        rw [if_neg h₂, if_neg h₁]
        exact textLtB_asymm as bs h

/-- Non-strictness of the byte-wise collation is transitive. -/
theorem textLtB_false_trans :
    ∀ a b c : List Char, textLtB a b = false → textLtB b c = false →
      textLtB a c = false
  | _, [], [], _, _ => by assumption
  | _, [], _ :: _, _, hbc => by simp [textLtB] at hbc
  | a, _ :: _, [], hab, _ => by
    cases a with
    | nil => simp [textLtB] at hab
    | cons x as => simp [textLtB]
  | a, y :: bs, z :: cs, hab, hbc => by
    cases a with
    | nil => simp [textLtB] at hab
    | cons x as =>
      simp only [textLtB] at hab hbc ⊢
      have hxy : ¬x.toNat < y.toNat := by
        by_contra hc
        rw [if_pos hc] at hab
        exact absurd hab (by simp)
      have hyz : ¬y.toNat < z.toNat := by
        by_contra hc
        rw [if_pos hc] at hbc
        exact absurd hbc (by simp)
      rw [if_neg (show ¬x.toNat < z.toNat by omega)]
      by_cases hzx : z.toNat < x.toNat
      · rw [if_pos hzx]
      · rw [if_neg hzx]
        have hyx : ¬y.toNat < x.toNat := by omega
        have hzy : ¬z.toNat < y.toNat := by omega
        rw [if_neg hxy, if_neg hyx] at hab
        rw [if_neg hyz, if_neg hzy] at hbc
        exact textLtB_false_trans as bs cs hab hbc

instance : IsTrans ShardRow shardDateGE :=
  ⟨fun a b c h₁ h₂ => by
    unfold shardDateGE textLe at *
    exact textLtB_false_trans a.shard_date.data b.shard_date.data c.shard_date.data h₁ h₂⟩

instance : IsTotal ShardRow shardDateGE := by
  refine ⟨fun a b => ?_⟩
  unfold shardDateGE textLe
  by_cases h : textLtB a.shard_date.data b.shard_date.data = true
  · exact Or.inr (textLtB_asymm _ _ h)
  · exact Or.inl (Bool.eq_false_iff.mpr h)

instance : IsTrans (Nat × ℚ) distLE := ⟨fun _ _ _ h₁ h₂ => le_trans h₁ h₂⟩

instance : IsTotal (Nat × ℚ) distLE := ⟨fun a b => le_total a.2 b.2⟩

instance : IsTrans Result scoreGE := ⟨fun _ _ _ h₁ h₂ => le_trans h₂ h₁⟩

instance : IsTotal Result scoreGE := ⟨fun a b => le_total b.score a.score⟩

instance : IsTrans Result finalGE := ⟨fun _ _ _ h₁ h₂ => le_trans h₂ h₁⟩

instance : IsTotal Result finalGE := ⟨fun a b => le_total b.final_score a.final_score⟩

/-- Filtering by a predicate annihilates a list already filtered by its
negation. -/
theorem filter_not_filter_self {α : Type} (p : α → Bool) (l : List α) :
    (l.filter fun a => !p a).filter p = [] := by
  induction l with
  | nil => rfl
  | cons x xs ih => by_cases h : p x <;> simp [List.filter_cons, h, ih]

/-- Filtering is idempotent. -/
theorem filter_idem {α : Type} (p : α → Bool) (l : List α) :
    (l.filter p).filter p = l.filter p := by
  rw [List.filter_filter]
  exact List.filter_congr fun a _ => Bool.and_self (p a)

/-- Claim C1: for every tenant `t`, vector-id list `V` and shard date `s`,
`get_vector_metadata` returns only rows whose `user_id` is `t`, whose
`shard_date` is `s` and whose `vector_id` lies in `V` — never a row of a
different tenant, even under numeric id collisions; on the Scenario A
database, `lookup("u1", [0,1,5], "20250101")` returns exactly the two `u1`
rows with ids 0 and 1, dropping the colliding id 5 owned by `u2`. -/
theorem lookup_tenant_isolation :
    (∀ (db : DB) (t : String) (V : List Int) (s : String),
        ∀ r ∈ getVectorMetadata db t V s,
          r.user_id = t ∧ r.shard_date = s ∧ r.vector_id ∈ V)
    ∧ getVectorMetadata scnADB "u1" [0, 1, 5] "20250101"
        = [mkRow "u1" "20250101" 0, mkRow "u1" "20250101" 1] := by
  constructor
  · intro db t V s r hr
    simp only [getVectorMetadata, List.mem_filter, decide_eq_true_eq] at hr
    exact hr.2
  · decide

/-- Witness for C1: the Scenario A row with id 0 is returned for `u1`, and
the theorem yields its tenant, shard and id-membership facts. -/
theorem lookup_tenant_isolation_witness :
    (mkRow "u1" "20250101" 0).user_id = "u1" ∧
      (mkRow "u1" "20250101" 0).shard_date = "20250101" ∧
      (mkRow "u1" "20250101" 0).vector_id ∈ ([0, 1, 5] : List Int) :=
  lookup_tenant_isolation.1 scnADB "u1" [0, 1, 5] "20250101"
    (mkRow "u1" "20250101" 0) (by decide)

/-- Claim C9: the blended final score of `_rerank_results` is monotone: at
equal recency a higher-or-equal similarity gives a higher-or-equal final
score, and at equal similarity a higher-or-equal recency does. -/
theorem rerank_blend_monotone :
    (∀ a b : Result, recencyScore a.shard_date = recencyScore b.shard_date →
        a.score ≤ b.score →
        blend a.score (recencyScore a.shard_date) ≤
          blend b.score (recencyScore b.shard_date))
    ∧ (∀ a b : Result, a.score = b.score →
        recencyScore a.shard_date ≤ recencyScore b.shard_date →
        blend a.score (recencyScore a.shard_date) ≤
          blend b.score (recencyScore b.shard_date)) := by
  constructor
  · intro a b hrc hs
    unfold blend
    rw [hrc]
    linarith
  · intro a b hs hrc
    unfold blend
    rw [hs]
    linarith

/-- Witness for C9: two concrete results in the same shard with similarity
scores 0 and 1, and two with equal similarity and recencies 0 ≤ 1. -/
theorem rerank_blend_monotone_witness :
    blend (⟨0, "d", 0, 0, "c", 0, 0, "20250101", 0⟩ : Result).score
        (recencyScore (⟨0, "d", 0, 0, "c", 0, 0, "20250101", 0⟩ : Result).shard_date)
      ≤ blend (⟨0, "d", 0, 0, "c", 0, 1, "20250101", 0⟩ : Result).score
        (recencyScore (⟨0, "d", 0, 0, "c", 0, 1, "20250101", 0⟩ : Result).shard_date) :=
  rerank_blend_monotone.1 ⟨0, "d", 0, 0, "c", 0, 0, "20250101", 0⟩
    ⟨0, "d", 0, 0, "c", 0, 1, "20250101", 0⟩ rfl (by norm_num)

/-- Claim C8: `delete_stale_data` is idempotent: a second run with the same
cutoff and no intervening writes reports zero deleted records, shards and
files, and leaves the metadata, the registry and the disk unchanged. -/
theorem delete_stale_idempotent (cutoff : String) (db : DB) (disk : List String) :
    deleteStaleData cutoff (deleteStaleData cutoff db disk).2.1
        (deleteStaleData cutoff db disk).2.2
      = (⟨0, 0, 0⟩, (deleteStaleData cutoff db disk).2.1,
          (deleteStaleData cutoff db disk).2.2) := by
  have hr := filter_not_filter_self
    (fun r : VRow => textLtB r.shard_date.data cutoff.data) db.rows
  have hs := filter_not_filter_self
    (fun s : ShardRow => textLtB s.shard_date.data cutoff.data) db.shards
  have hr2 := filter_idem
    (fun r : VRow => !textLtB r.shard_date.data cutoff.data) db.rows
  have hs2 := filter_idem
    (fun s : ShardRow => !textLtB s.shard_date.data cutoff.data) db.shards
  simp only [deleteStaleData, removeFiles]
  simp [hr, hs, hr2, hs2]

/-- The state of the database after `delete_stale_data`: both tables keep
exactly the rows not below the cutoff. -/
theorem deleteStaleData_db (cutoff : String) (db : DB) (disk : List String) :
    (deleteStaleData cutoff db disk).2.1
      = ⟨db.rows.filter fun r => !textLtB r.shard_date.data cutoff.data,
          db.shards.filter fun s => !textLtB s.shard_date.data cutoff.data⟩ := rfl

/-- Claim C3: after `delete_stale_data` with cutoff `C`,
`get_active_shards` returns exactly the registered shards with
`shard_date ≥ C`, newest first; every shard below `C`, all its metadata
rows and its registry row are gone, and nothing at or above `C` was lost. -/
theorem retention_sweep_correct (cutoff : String) (db : DB) (disk : List String) :
    getActiveShards cutoff (deleteStaleData cutoff db disk).2.1
        = List.insertionSort shardDateGE
          (db.shards.filter fun s => !textLtB s.shard_date.data cutoff.data)
    ∧ List.Sorted shardDateGE (getActiveShards cutoff (deleteStaleData cutoff db disk).2.1)
    ∧ (getActiveShards cutoff (deleteStaleData cutoff db disk).2.1).Perm
        (db.shards.filter fun s => !textLtB s.shard_date.data cutoff.data)
    ∧ (∀ s ∈ (deleteStaleData cutoff db disk).2.1.shards, textLe cutoff s.shard_date)
    ∧ (∀ r ∈ (deleteStaleData cutoff db disk).2.1.rows, textLe cutoff r.shard_date)
    ∧ (∀ s ∈ db.shards, textLe cutoff s.shard_date →
        s ∈ (deleteStaleData cutoff db disk).2.1.shards)
    ∧ (∀ r ∈ db.rows, textLe cutoff r.shard_date →
        r ∈ (deleteStaleData cutoff db disk).2.1.rows) := by
  have h1 : getActiveShards cutoff (deleteStaleData cutoff db disk).2.1
      = List.insertionSort shardDateGE
        (db.shards.filter fun s => !textLtB s.shard_date.data cutoff.data) := by
    unfold getActiveShards
    rw [deleteStaleData_db, filter_idem]
  refine ⟨h1, ?_, ?_, ?_, ?_, ?_, ?_⟩
  · rw [h1]
    exact List.sorted_insertionSort shardDateGE _
  · rw [h1]
    exact List.perm_insertionSort shardDateGE _
  · intro s hs
    rw [deleteStaleData_db] at hs
    simp only [List.mem_filter, Bool.not_eq_true'] at hs
    exact hs.2
  · intro r hr
    rw [deleteStaleData_db] at hr
    simp only [List.mem_filter, Bool.not_eq_true'] at hr
    exact hr.2
  · intro s hs hle
    rw [deleteStaleData_db]
    exact List.mem_filter.mpr ⟨hs, by simpa [Bool.not_eq_true'] using hle⟩
  · intro r hr hle
    rw [deleteStaleData_db]
    exact List.mem_filter.mpr ⟨hr, by simpa [Bool.not_eq_true'] using hle⟩

/-- Witness for C3, Scenario B: with cutoff `20250102` the shard
`20250102` survives the sweep. -/
theorem retention_sweep_correct_witness :
    (⟨"20250102", "p2", 1⟩ : ShardRow) ∈ (deleteStaleData "20250102" scnBDB []).2.1.shards :=
  (retention_sweep_correct "20250102" scnBDB []).2.2.2.2.2.1
    ⟨"20250102", "p2", 1⟩ (by decide) (by decide)

/-- Counterexample for C6: with Scenario B (shards `20250101`–`20250105`,
current date `20250105`, `retentionDays = 3`, so cutoff `20250102`) the
sweep keeps four distinct shard dates, not at most three: the retention
window `shard_date ≥ today − retentionDays` is inclusive and spans
`retentionDays + 1` shard-days. -/
theorem retention_window_cex :
    ((deleteStaleData "20250102" scnBDB []).2.1.shards.map (·.shard_date))
        = ["20250102", "20250103", "20250104", "20250105"]
      ∧ ¬(((deleteStaleData "20250102" scnBDB []).2.1.shards.map
          (·.shard_date)).dedup.length ≤ 3) := by
  constructor
  · decide
  · decide

/-- Claim C6 as amended: after a sweep with cutoff `today − r`, every shard
strictly older than the cutoff is deleted and every surviving shard date
lies in the inclusive window from the cutoff to `today` — a window of
`r + 1` distinct shard-days, not `r` (given that every registered shard
date is at most `today`, as dates come from `datetime.now()`). -/
theorem retention_window_amended (cutoff today : String) (db : DB)
    (disk : List String) (h : ∀ s ∈ db.shards, textLe s.shard_date today) :
    ∀ s ∈ (deleteStaleData cutoff db disk).2.1.shards,
      textLe cutoff s.shard_date ∧ textLe s.shard_date today := by
  intro s hs
  rw [deleteStaleData_db] at hs
  simp only [List.mem_filter, Bool.not_eq_true'] at hs
  exact ⟨hs.2, h s hs.1⟩

/-- Witness for C6 (amended), Scenario B with `today = 20250105` and
cutoff `20250102`: the surviving shard `20250103` lies inside the window. -/
theorem retention_window_amended_witness :
    textLe "20250102" "20250103" ∧ textLe "20250103" "20250105" :=
  retention_window_amended "20250102" "20250105" scnBDB [] (by decide)
    ⟨"20250103", "p3", 1⟩ (by decide)

/-- The vector ids of one `vectors_data` batch: `current_count + idx` over
the chunk positions, i.e. the contiguous range starting at the current
count. -/
theorem buildVectorsData_vector_ids (c : Nat) (chunks : List String)
    (dn : String) (pn : Option (List Int)) :
    (buildVectorsData c chunks dn pn).map (·.vector_id)
      = (List.range' c chunks.length).map Int.ofNat := by
  unfold buildVectorsData
  rw [List.map_map]
  show chunks.enum.map ((fun i => Int.ofNat (c + i)) ∘ Prod.fst) = _
  rw [← List.map_map, List.enum_map_fst, List.range'_eq_map_range, List.map_map]
  rfl

/-- The flattened ids of a call sequence fill the contiguous range from
the starting count. -/
theorem ingestIds_flatten (seq : List (List String)) :
    ∀ c, (ingestIds c seq).flatten
      = (List.range' c (seq.map List.length).sum).map Int.ofNat := by
  induction seq with
  | nil => intro c; simp [ingestIds]
  | cons chunks rest ih =>
    intro c
    simp only [ingestIds, List.flatten_cons, List.map_cons, List.sum_cons,
      buildVectorsData_vector_ids, ih]
    rw [← List.map_append]
    congr 1
    rw [Nat.add_comm chunks.length, ← List.range'_append c chunks.length _ 1]
    simp

/-- Claim C2: each `add_document` call on a shard holding `count_before`
vectors assigns exactly the contiguous id range
`[count_before, count_before + n)` to its `n` chunks, and over any
sequence of calls the assigned ids fill `[0, total)` with no gap and no
reuse. -/
theorem add_document_id_contiguity :
    (∀ (current_count : Nat) (chunks : List String) (document_name : String)
        (page_numbers : Option (List Int)),
        (buildVectorsData current_count chunks document_name page_numbers).map
            (·.vector_id)
          = (List.range' current_count chunks.length).map Int.ofNat)
    ∧ (∀ seq : List (List String),
        (ingestIds 0 seq).flatten
          = (List.range (seq.map List.length).sum).map Int.ofNat)
    ∧ (∀ seq : List (List String), ((ingestIds 0 seq).flatten).Nodup) := by
  refine ⟨buildVectorsData_vector_ids, fun seq => ?_, fun seq => ?_⟩
  · rw [ingestIds_flatten seq 0, List.range_eq_range']
  · rw [ingestIds_flatten seq 0, ← List.range_eq_range']
    exact List.Nodup.map (fun a b hab => Int.ofNat.inj hab) (List.nodup_range _)

/-- The search returns at most `k` real slots. -/
theorem knn_length_le (vecs : List Vec) (q : Vec) (k : Nat) :
    (knnResults vecs q k).length ≤ k :=
  List.length_take_le k _

/-- The real slots are non-decreasing by distance. -/
theorem knn_sorted (vecs : List Vec) (q : Vec) (k : Nat) :
    List.Sorted distLE (knnResults vecs q k) :=
  List.Pairwise.sublist (List.take_sublist k _) (List.sorted_insertionSort distLE _)

/-- Every real slot names a stored vector and carries its true distance. -/
theorem knn_mem_spec (vecs : List Vec) (q : Vec) (k : Nat) :
    ∀ p ∈ knnResults vecs q k, p.1 < vecs.length ∧ p.2 = sqDist (vecs.getD p.1 []) q := by
  intro p hp
  have h1 : p ∈ List.insertionSort distLE (scoredVectors vecs q) :=
    List.mem_of_mem_take hp
  have h2 : p ∈ scoredVectors vecs q :=
    (List.perm_insertionSort distLE _).mem_iff.mp h1
  unfold scoredVectors at h2
  simp only [List.mem_map, List.mem_range] at h2
  obtain ⟨i, hi, rfl⟩ := h2
  exact ⟨hi, rfl⟩

/-- Exactness (100% recall): no stored vector left out of the result beats
a returned slot on distance. -/
theorem knn_recall (vecs : List Vec) (q : Vec) (k : Nat) :
    ∀ p ∈ knnResults vecs q k, ∀ j < vecs.length,
      j ∉ (knnResults vecs q k).map Prod.fst →
      p.2 ≤ sqDist (vecs.getD j []) q := by
  intro p hp j hj hnot
  have hjs : (j, sqDist (vecs.getD j []) q) ∈ scoredVectors vecs q := by
    unfold scoredVectors
    exact List.mem_map.mpr ⟨j, List.mem_range.mpr hj, rfl⟩
  have hsort : (j, sqDist (vecs.getD j []) q) ∈
      List.insertionSort distLE (scoredVectors vecs q) :=
    (List.perm_insertionSort distLE _).mem_iff.mpr hjs
  rw [← List.take_append_drop k (List.insertionSort distLE (scoredVectors vecs q))] at hsort
  rcases List.mem_append.mp hsort with htk | hdr
  · exact absurd (List.mem_map.mpr ⟨_, htk, rfl⟩) hnot
  · exact (List.sorted_insertionSort distLE _).rel_of_mem_take_of_mem_drop hp hdr

/-- Claim C7 as amended: `search(shard, q, k)` returns at most `k` ids,
ordered non-decreasing (not strictly ascending — ties are possible) by
squared Euclidean distance to `q`; every returned id is a vector actually
stored in the shard with its true distance, and no stored vector left out
is closer than a returned one (exact search, 100% recall). -/
theorem search_exact_ascending (vecs : List Vec) (q : Vec) (k : Nat) :
    (knnResults vecs q k).length ≤ k
    ∧ List.Sorted distLE (knnResults vecs q k)
    ∧ (∀ p ∈ knnResults vecs q k,
        p.1 < vecs.length ∧ p.2 = sqDist (vecs.getD p.1 []) q)
    ∧ (∀ p ∈ knnResults vecs q k, ∀ j < vecs.length,
        j ∉ (knnResults vecs q k).map Prod.fst →
        p.2 ≤ sqDist (vecs.getD j []) q) :=
  ⟨knn_length_le vecs q k, knn_sorted vecs q k, knn_mem_spec vecs q k,
    knn_recall vecs q k⟩

/-- Counterexample to C7 as stated: with two identical stored vectors the
two returned slots carry equal distances, so the result is not ordered
strictly ascending by distance (only non-decreasing). -/
theorem search_strict_ascending_cex :
    knnResults [[0], [0]] [0] 2 = [(0, 0), (1, 0)]
    ∧ ¬List.Chain' (fun a b : Nat × ℚ => a.2 < b.2) (knnResults [[0], [0]] [0] 2) := by
  have h0 : sqDist [0] [0] = 0 := by norm_num [sqDist]
  have hscored : scoredVectors [[0], [0]] [0] = [(0, 0), (1, 0)] := by
    show (List.range 2).map _ = _
    rw [show List.range 2 = [0, 1] by decide]
    simp [h0]
  have hknn : knnResults [[0], [0]] [0] 2 = [(0, 0), (1, 0)] := by
    unfold knnResults
    rw [hscored]
    norm_num [List.insertionSort, List.orderedInsert, distLE]
  refine ⟨hknn, ?_⟩
  rw [hknn]
  simp

/-- Witness for C7 (amended) at a concrete shard: two stored 1-dimensional
vectors, `k = 1`; the theorem yields that the left-out vector at index 1
is no closer than the returned slot `(0, 1)`. -/
theorem search_exact_ascending_witness :
    ((0 : Nat), (1 : ℚ)).2 ≤ sqDist (([[2], [5]] : List Vec).getD 1 []) [1] := by
  have hscored : scoredVectors [[2], [5]] [1] = [(0, 1), (1, 16)] := by
    show (List.range 2).map _ = _
    rw [show List.range 2 = [0, 1] by decide]
    norm_num [sqDist]
  have hknn : knnResults [[2], [5]] [1] 1 = [(0, 1)] := by
    unfold knnResults
    rw [hscored]
    norm_num [List.insertionSort, List.orderedInsert, distLE]
  exact (search_exact_ascending [[2], [5]] [1] 1).2.2.2 (0, 1)
    (by rw [hknn]; exact List.mem_singleton.mpr rfl) 1 (by norm_num)
    (by rw [hknn]; norm_num)

/-- The id column of the padded search output: the real ids first, then
the `-1` sentinels. -/
theorem faissSearch_ids (vecs : List Vec) (q : Vec) (k : Nat) :
    (faissSearch vecs q k).map (·.1)
      = (knnResults vecs q k).map (fun p => ((p.1 : Int)))
        ++ List.replicate (k - (knnResults vecs q k).length) (-1) := by
  unfold faissSearch
  rw [List.map_append, List.map_map, List.map_replicate]
  rfl

/-- The distance column of the padded search output: the real distances
first, then the sentinel distances. -/
theorem faissSearch_dists (vecs : List Vec) (q : Vec) (k : Nat) :
    (faissSearch vecs q k).map (·.2)
      = (knnResults vecs q k).map (·.2)
        ++ List.replicate (k - (knnResults vecs q k).length) padDistance := by
  unfold faissSearch
  rw [List.map_append, List.map_map, List.map_replicate]
  rfl

/-- Claim C10: under the ingestion invariant that every metadata row
carries a non-negative vector id, `search_user_documents` never surfaces a
padded slot: every combined result has `vector_id ≠ -1`, its distance is
the real distance of a real search slot naming a vector physically stored
in the shard, and the querying tenant owns a metadata row for it. -/
theorem search_no_padded_results (db : DB) (user_id shard_date : String)
    (vecs : List Vec) (q : Vec) (top_k : Nat)
    (hpos : ∀ r ∈ db.rows, 0 ≤ r.vector_id) :
    ∀ res ∈ searchShardResults db user_id shard_date vecs q top_k,
      res.vector_id ≠ -1
      ∧ (∃ p ∈ knnResults vecs q (top_k * 3),
          (p.1 : Int) = res.vector_id ∧ res.distance = p.2 ∧ p.1 < vecs.length)
      ∧ ∃ row ∈ db.rows, row.user_id = user_id ∧ row.shard_date = shard_date ∧
          row.vector_id = res.vector_id := by
  intro res hres
  unfold searchShardResults at hres
  simp only [List.mem_map] at hres
  obtain ⟨m, hm, rfl⟩ := hres
  simp only [getVectorMetadata, List.mem_filter, decide_eq_true_eq] at hm
  have hmrow := hm.1
  have hmuser := hm.2.1
  have hmshard := hm.2.2.1
  have hmid := hm.2.2.2
  have h0 : 0 ≤ m.vector_id := hpos m hmrow
  have hmem₁ : m.vector_id ∈ (knnResults vecs q (top_k * 3)).map
      (fun p => ((p.1 : Int))) := by
    rw [faissSearch_ids] at hmid
    rcases List.mem_append.mp hmid with h | h
    · exact h
    · rw [List.mem_replicate] at h
      omega
  have hlt : ((knnResults vecs q (top_k * 3)).map
      (fun p => ((p.1 : Int)))).indexOf m.vector_id
        < ((knnResults vecs q (top_k * 3)).map (fun p => ((p.1 : Int)))).length :=
    List.indexOf_lt_length.mpr hmem₁
  have hltK : ((knnResults vecs q (top_k * 3)).map
      (fun p => ((p.1 : Int)))).indexOf m.vector_id
        < (knnResults vecs q (top_k * 3)).length := by
    simpa using hlt
  have hidx : ((faissSearch vecs q (top_k * 3)).map (·.1)).indexOf m.vector_id
      = ((knnResults vecs q (top_k * 3)).map
          (fun p => ((p.1 : Int)))).indexOf m.vector_id := by
    rw [faissSearch_ids]
    exact List.indexOf_append_of_mem hmem₁
  have hp1 : (((knnResults vecs q (top_k * 3)).get
      ⟨_, hltK⟩).1 : Int) = m.vector_id := by
    have hmap := List.getElem_map (fun p : Nat × ℚ => ((p.1 : Int)))
      (l := knnResults vecs q (top_k * 3))
      (n := ((knnResults vecs q (top_k * 3)).map
        (fun p => ((p.1 : Int)))).indexOf m.vector_id) (h := hlt)
    rw [List.getElem_indexOf hlt] at hmap
    rw [List.get_eq_getElem]
    exact hmap.symm
  have hdist : ((faissSearch vecs q (top_k * 3)).map (·.2)).getD
      (((faissSearch vecs q (top_k * 3)).map (·.1)).indexOf m.vector_id) 0
        = ((knnResults vecs q (top_k * 3)).get ⟨_, hltK⟩).2 := by
    rw [hidx, faissSearch_dists]
    rw [List.getD_append _ _ _ _ (by simpa using hltK)]
    rw [List.getD_eq_getElem _ _ (by simpa using hltK)]
    rw [List.getElem_map]
    rw [List.get_eq_getElem]
  refine ⟨by dsimp only; omega, ?_, ?_⟩
  · refine ⟨(knnResults vecs q (top_k * 3)).get ⟨_, hltK⟩,
      (List.get_eq_getElem _ _ ▸ List.getElem_mem hltK), hp1, ?_, ?_⟩
    · dsimp only
      exact hdist
    · exact (knn_mem_spec vecs q (top_k * 3) _
        (List.get_eq_getElem _ _ ▸ List.getElem_mem hltK)).1
  · exact ⟨m, hmrow, hmuser, hmshard, rfl⟩

/-- Witness for C10 at a concrete shard of one vector: the single combined
result for tenant `u` has id 0 (not −1), carries the real distance 4 of
the stored vector, and is backed by the tenant metadata row. -/
theorem search_no_padded_results_witness :
    (⟨0, "d", 0, 0, "c", 4, 1 / 5, "s", 0⟩ : Result).vector_id ≠ -1
    ∧ (∃ p ∈ knnResults [[2]] [0] (1 * 3),
        (p.1 : Int) = (⟨0, "d", 0, 0, "c", 4, 1 / 5, "s", 0⟩ : Result).vector_id
        ∧ (⟨0, "d", 0, 0, "c", 4, 1 / 5, "s", 0⟩ : Result).distance = p.2
        ∧ p.1 < ([[2]] : List Vec).length)
    ∧ ∃ row ∈ (⟨[⟨0, "u", "s", "d", 0, 0, "c"⟩], []⟩ : DB).rows,
        row.user_id = "u" ∧ row.shard_date = "s"
        ∧ row.vector_id = (⟨0, "d", 0, 0, "c", 4, 1 / 5, "s", 0⟩ : Result).vector_id :=
  search_no_padded_results ⟨[⟨0, "u", "s", "d", 0, 0, "c"⟩], []⟩ "u" "s" [[2]] [0] 1
    (by decide) ⟨0, "d", 0, 0, "c", 4, 1 / 5, "s", 0⟩
    (by
      have hval : searchShardResults ⟨[⟨0, "u", "s", "d", 0, 0, "c"⟩], []⟩ "u" "s" [[2]] [0] 1
          = [⟨0, "d", 0, 0, "c", 4, 1 / 5, "s", 0⟩] := by
        norm_num +decide [searchShardResults, getVectorMetadata, faissSearch, knnResults,
          scoredVectors, sqDist, List.insertionSort, List.orderedInsert, List.replicate,
          List.indexOf, List.findIdx, List.findIdx.go, List.filter_cons, List.filter_nil]
      rw [hval]
      exact List.mem_singleton.mpr rfl)

/-- The candidate pool of the rerank counterexample state: the recent
chunk first (shards are visited newest first), then the old chunk. -/
theorem c4_allResults :
    allSearchResults c4St "u" [0] 1 "19000101" = [c4ResNew, c4ResOld] := by
  have hact : getActiveShards "19000101" c4St.db
      = [⟨"20250101", "pNew", 1⟩, ⟨"20000101", "pOld", 1⟩] := by decide
  have hfN : fileLookup c4St.files "pNew" = some [[201 / 200]] := by
    simp [fileLookup, c4St, List.find?]
  have hfO : fileLookup c4St.files "pOld" = some [[1]] := by
    simp [fileLookup, c4St, List.find?]
  have hN : searchShardResults c4St.db "u" "20250101" [[201 / 200]] [0] 1 = [c4ResNew] := by
    norm_num +decide [searchShardResults, c4St, c4ResNew, getVectorMetadata, faissSearch,
      knnResults, scoredVectors, sqDist, List.insertionSort, List.orderedInsert,
      List.replicate, List.indexOf, List.findIdx, List.findIdx.go, List.filter_cons,
      List.filter_nil]
  have hO : searchShardResults c4St.db "u" "20000101" [[1]] [0] 1 = [c4ResOld] := by
    norm_num +decide [searchShardResults, c4St, c4ResOld, getVectorMetadata, faissSearch,
      knnResults, scoredVectors, sqDist, List.insertionSort, List.orderedInsert,
      List.replicate, List.indexOf, List.findIdx, List.findIdx.go, List.filter_cons,
      List.filter_nil]
  unfold allSearchResults
  rw [hact]
  simp only [List.map_cons, List.map_nil, hfN, hfO]
  rw [hN, hO]
  rfl

/-- Sorting the counterexample pool by similarity puts the old chunk
first: its similarity score 1/2 beats 40000/80401. -/
theorem c4_sorted :
    List.insertionSort scoreGE (allSearchResults c4St "u" [0] 1 "19000101")
      = [c4ResOld, c4ResNew] := by
  rw [c4_allResults]
  norm_num [List.insertionSort, List.orderedInsert, scoreGE, c4ResNew, c4ResOld]

/-- `search_user_documents` truncates the counterexample pool to the old
chunk alone, before any recency blending. -/
theorem c4_search :
    searchUserDocuments c4St "u" [0] 1 "19000101" = [c4ResOld] := by
  unfold searchUserDocuments
  rw [c4_sorted]
  rfl

/-- The list returned to the caller in the counterexample: only the old
chunk, annotated with its final score. -/
theorem c4_returned :
    getRelevantChunks c4St "u" [0] 1 "19000101" = [withFinal c4ResOld] := by
  unfold getRelevantChunks rerankResults
  rw [c4_search]
  simp [List.insertionSort, List.orderedInsert]

/-- The recency score of the old shard date. -/
theorem c4_recency_old : recencyScore "20000101" = 20000101 / 20300101 := by
  unfold recencyScore
  rw [show pyInt "20000101" = 20000101 from by decide]
  norm_num

/-- The recency score of the recent shard date. -/
theorem c4_recency_new : recencyScore "20250101" = 20250101 / 20300101 := by
  unfold recencyScore
  rw [show pyInt "20250101" = 20250101 from by decide]
  norm_num

/-- Counterexample to C4 as stated: on `c4St` with `top_k = 1` the list
returned to the caller is not a top-1-by-final-score subset of the
tenant-filtered candidates — the recent chunk is dropped by the
similarity-only truncation inside `search_user_documents` although its
final blended score beats the returned chunk. -/
theorem rerank_truncation_cex :
    ¬returnedTopKByFinal (allSearchResults c4St "u" [0] 1 "19000101")
      (getRelevantChunks c4St "u" [0] 1 "19000101") 1 := by
  rw [c4_allResults, c4_returned]
  intro h
  have hkey : resultKey c4ResNew ∉ [withFinal c4ResOld].map resultKey := by
    simp [resultKey, withFinal, c4ResNew, c4ResOld]
  have hle := h.2 c4ResNew (by simp) hkey (withFinal c4ResOld) (by simp)
  simp only [withFinal, c4ResNew, c4ResOld, blend, c4_recency_old, c4_recency_new] at hle
  norm_num at hle

/-- Claim C4 as amended: the list returned to the caller is sorted
descending by the final blended score, but the truncation to `top_k`
happens earlier and by similarity alone: the returned results are exactly
the `top_k`-by-similarity candidates (the similarity score of every kept
candidate is at least that of every dropped candidate), reordered by the
blended score. -/
theorem rerank_order_amended (st : SysState) (user_id : String) (q : Vec)
    (top_k : Nat) (cutoff : String) :
    List.Sorted finalGE (getRelevantChunks st user_id q top_k cutoff)
    ∧ (getRelevantChunks st user_id q top_k cutoff).Perm
        ((searchUserDocuments st user_id q top_k cutoff).map withFinal)
    ∧ (∀ x ∈ searchUserDocuments st user_id q top_k cutoff,
        ∀ y ∈ (List.insertionSort scoreGE
          (allSearchResults st user_id q top_k cutoff)).drop top_k,
        y.score ≤ x.score) := by
  refine ⟨?_, ?_, ?_⟩
  · unfold getRelevantChunks rerankResults
    exact List.sorted_insertionSort finalGE _
  · unfold getRelevantChunks rerankResults
    exact List.perm_insertionSort finalGE _
  · intro x hx y hy
    unfold searchUserDocuments at hx
    exact (List.sorted_insertionSort scoreGE _).rel_of_mem_take_of_mem_drop hx hy

/-- Witness for C4 (amended) on the concrete state: the dropped recent
chunk has similarity no greater than the kept old chunk. -/
theorem rerank_order_amended_witness : c4ResNew.score ≤ c4ResOld.score :=
  (rerank_order_amended c4St "u" [0] 1 "19000101").2.2 c4ResOld
    (by rw [c4_search]; exact List.mem_singleton.mpr rfl) c4ResNew
    (by rw [c4_sorted]; simp)

/-- Loading or creating a shard index never touches the metadata rows
(only the registry, when a new shard is registered). -/
theorem loadOrCreateIndex_rows (st : SysState) (data_dir shard_date : String) :
    (loadOrCreateIndex st data_dir shard_date).2.2.rows = st.db.rows := by
  unfold loadOrCreateIndex registerShard
  cases fileLookup st.files (indexPath data_dir shard_date) <;> rfl

/-- Counterexample to C5 as stated: on an empty store, an ingestion whose
final persist step fails (`StorageError`) still leaves the metadata rows
of that call committed — the metadata commit precedes the index write in
`add_document`, so the abort is not free of a metadata commit. -/
theorem ingest_partial_commit_cex :
    (addDocument (fun _ => [(0 : ℚ)]) true false ⟨⟨[], []⟩, []⟩ "data" "u1"
        ["hello"] "doc" none "20250101").1 = .err .storage
    ∧ (addDocument (fun _ => [(0 : ℚ)]) true false ⟨⟨[], []⟩, []⟩ "data" "u1"
        ["hello"] "doc" none "20250101").2.db.rows ≠ [] := by
  constructor
  · decide
  · decide

/-- Claim C5 as amended: an `UpstreamError` (embedding failure) aborts the
call with the whole state unchanged — no metadata was committed; a
`StorageError` in the final persist step aborts the call leaving the
on-disk index files unchanged, but the metadata rows of that call are
already committed (appended to the store) — the acknowledged durability
gap between the metadata write and the index write. -/
theorem ingest_abort_amended (emb : String → Vec) (persistOk : Bool)
    (st : SysState) (data_dir user_id : String) (chunks : List String)
    (document_name : String) (page_numbers : Option (List Int))
    (shard_date : String) (h : chunks ≠ []) :
    addDocument emb false persistOk st data_dir user_id chunks document_name
        page_numbers shard_date = (.err .upstream, st)
    ∧ (addDocument emb true false st data_dir user_id chunks document_name
        page_numbers shard_date).1 = .err .storage
    ∧ (addDocument emb true false st data_dir user_id chunks document_name
        page_numbers shard_date).2.files = st.files
    ∧ (addDocument emb true false st data_dir user_id chunks document_name
        page_numbers shard_date).2.db.rows
        = st.db.rows ++
          (buildVectorsData (loadOrCreateIndex st data_dir shard_date).2.1 chunks
            document_name page_numbers).map (vdataToRow user_id shard_date) := by
  have hne : chunks.isEmpty = false := by
    cases chunks with
    | nil => exact absurd rfl h
    | cons c cs => rfl
  refine ⟨?_, ?_, ?_, ?_⟩
  · unfold addDocument
    rw [hne]
    simp
  · unfold addDocument
    rw [hne]
    simp
  · unfold addDocument
    rw [hne]
    simp
  · unfold addDocument
    rw [hne]
    simp [addVectors, loadOrCreateIndex_rows]

/-- Witness for C5 (amended): on the empty store, an embedding failure
aborts the one-chunk call with the state unchanged. -/
theorem ingest_abort_amended_witness :
    addDocument (fun _ => [(0 : ℚ)]) false true ⟨⟨[], []⟩, []⟩ "data" "u1"
        ["hello"] "doc" none "20250101"
      = (.err .upstream, ⟨⟨[], []⟩, []⟩) :=
  (ingest_abort_amended (fun _ => [(0 : ℚ)]) true ⟨⟨[], []⟩, []⟩ "data" "u1"
    ["hello"] "doc" none "20250101" (by decide)).1

end DocStore
